import Mathlib

/-!
Verification of the Monkey-Language interpreter (lexer → Pratt parser →
tree-walking evaluator, written in Go) against its natural-language
specification.

This file shallowly embeds the Go sources:
  * `src/object/object.go`      — the runtime value model and hash-key protocol
  * `src/object/environment.go` — chained environments
  * `src/evaluator/evaluator.go`— the tree-walking evaluator and the Pratt parser
  * `src/evaluator/builtins.go` — the built-in functions

Modelling conventions:
  * Go's `int64` is modelled as `Int`; arithmetic that can overflow wraps
    through `wrap64` (two's-complement wrapping, as Go specifies).
  * Go strings are byte sequences; Monkey string values are modelled as
    `List (Fin 256)` (their raw bytes).
  * A Go `object.Object` interface value may be `nil` (the evaluator returns
    `nil` for `let` statements and assignment expressions), so evaluation
    results and every container slot that holds a Go `Object` are
    `Option Object`, with `none` for Go's `nil`.
  * Go runtime panics (failed type assertions, index out of range, division
    by zero, nil dereference) are modelled as the `.error` branch of an
    `Except String _` result; ordinary Monkey `Error` values stay inside the
    value domain as `Object.errorO`.
  * Environments are mutable and shared between closures in Go.  They are
    modelled as a heap `EnvStore := List Environment`, with environments
    addressed by their index; `outer` pointers are indices.  All environments
    created by evaluation point outward to earlier indices, so a chain walk
    needs at most `es.length` steps.
  * The evaluator and parser recurse on an explicit `fuel : Nat`; running out
    of fuel is reported through the panic channel and never happens in the
    concrete runs below.
  * Unobservable side effects (the text `puts` writes to stdout) and pointer
    identity of freshly allocated non-singleton objects are not modelled;
    Go's `==`/`!=` fallback compares pointers, which for the shared `TRUE`,
    `FALSE` and `NULL` singletons coincides with the structural comparison
    used here, and is `false` for the freshly-allocated results of distinct
    subexpression evaluations.
-/

/-! ## Tokens (the Go `token` package, `src/unnamed/part_000`) -/

inductive TokenType where
  | ILLEGAL | EOF | IDENT | INT | ASSIGN | PLUS | MINUS | BANG | ASTERISK | SLASH
  | LT | GT | COLON | COMMA | SEMICOLON | LPAREN | RPAREN | LBRACE | RBRACE
  | LBRACKET | RBRACKET | EQ | NOT_EQ | FUNCTION | LET | TRUE | FALSE | IF | ELSE
  | RETURN | STRING
deriving DecidableEq, Repr

/-- The Go `token.TokenType` string constant backing each token kind. -/
def ttStr : TokenType → String
  | .ILLEGAL => "ILLEGAL" | .EOF => "EOF" | .IDENT => "IDENT" | .INT => "INT"
  | .ASSIGN => "ASSIGN" | .PLUS => "PLUS" | .MINUS => "MINUS" | .BANG => "BANG"
  | .ASTERISK => "ASTERISK" | .SLASH => "SLASH" | .LT => "LT" | .GT => "GT"
  | .COLON => "COLON" | .COMMA => "COMMA" | .SEMICOLON => "SEMICOLON"
  | .LPAREN => "LPAREN" | .RPAREN => "RPAREN" | .LBRACE => "LBRACE"
  | .RBRACE => "RBRACE" | .LBRACKET => "LBRACKET" | .RBRACKET => "RBRACKET"
  | .EQ => "EQ" | .NOT_EQ => "NOT_EQ" | .FUNCTION => "FUNCTION" | .LET => "LET"
  | .TRUE => "TRUE" | .FALSE => "FALSE" | .IF => "IF" | .ELSE => "ELSE"
  | .RETURN => "RETURN" | .STRING => "STRING"

structure Token where
  type' : TokenType
  literal : String
deriving DecidableEq, Repr

/-! ## AST (the Go `ast` package, as used by parser and evaluator)

Go AST child pointers may be `nil` (a parselet that fails returns `nil`
after recording an error), hence the `Option` children.  Go's nil slices
(`Parameters`, `Arguments`, `Elements` after a failed list parse) are
modelled as `[]`, which is observationally equal for `len` and `range`.
`HashLiteral.Pairs` is a Go map keyed by (pointer-distinct) expressions;
it is modelled as the list of pairs in insertion order — no claim below
depends on hash-literal iteration order, which Go randomises. -/

mutual
inductive Expression where
  | ident (value : String)
  | integerLit (value : Int)
  | booleanLit (value : Bool)
  | stringLit (value : List (Fin 256))
  | prefixE (operator : String) (right : Option Expression)
  | infixE (operator : String) (left : Option Expression) (right : Option Expression)
  | ifE (condition : Option Expression) (consequence : List Statement)
        (alternative : Option (List Statement))
  | functionLit (parameters : List String) (body : List Statement)
  | callE (function : Option Expression) (arguments : List (Option Expression))
  | arrayLit (elements : List (Option Expression))
  | indexE (left : Option Expression) (index : Option Expression)
  | hashLit (pairs : List (Option Expression × Option Expression))
  | assignE (name : String) (value : Option Expression)

inductive Statement where
  | letS (name : String) (value : Option Expression)
  | returnS (value : Option Expression)
  | exprS (e : Option Expression)
  | blockS (statements : List Statement)
end

/-! ## Object model (`src/object/object.go`) -/

def INTEGER_OBJ : String := "INTEGER"
def BOOLEAN_OBJ : String := "BOOLEAN"
def NULL_OBJ : String := "NULL"
def RETURN_VALUE_OBJ : String := "RETURN_VALUE"
def ERROR_OBJ : String := "ERROR"
def FUNCTION_OBJ : String := "FUNCTION"
def STRING_OBJ : String := "STRING"
def BUILTIN_OBJ : String := "BUILTIN"
def ARRAY_OBJ : String := "ARRAY"
def HASH_OBJ : String := "HASH"

structure HashKey where
  type' : String
  value : Nat
deriving DecidableEq, Repr

/-- Runtime values.  `functionO` captures its defining environment by
reference (an `EnvStore` index), exactly as the Go `object.Function` holds a
`*Environment`.  `hashO` is the Go `map[HashKey]HashPair` as an association
list keyed by `HashKey` (digest collisions overwrite, as in a Go map);
the pair stores (original key object, value object). -/
inductive Object where
  | integerO (value : Int)
  | booleanO (value : Bool)
  | nullO
  | stringO (value : List (Fin 256))
  | arrayO (elements : List (Option Object))
  | hashO (pairs : List (HashKey × Object × Option Object))
  | functionO (parameters : List String) (body : List Statement) (env : Nat)
  | builtinO (name : String)
  | returnVO (value : Option Object)
  | errorO (message : String)

/-- `Object.Type()`. -/
def typeOf : Object → String
  | .integerO _ => INTEGER_OBJ
  | .booleanO _ => BOOLEAN_OBJ
  | .nullO => NULL_OBJ
  | .stringO _ => STRING_OBJ
  | .arrayO _ => ARRAY_OBJ
  | .hashO _ => HASH_OBJ
  | .functionO _ _ _ => FUNCTION_OBJ
  | .builtinO _ => BUILTIN_OBJ
  | .returnVO _ => RETURN_VALUE_OBJ
  | .errorO _ => ERROR_OBJ

/-! ### The hash-key protocol

Go's `String.HashKey` feeds the raw bytes through `hash/fnv`'s `New64`,
which is the FNV-**1** variant: for each byte `b`, `h = (h * prime) XOR b`
on a `uint64`, starting from the 64-bit FNV offset basis.  (The FNV-1a
variant would XOR first and multiply second.)  `Integer.HashKey` converts
the `int64` with `uint64(i.Value)` — a two's-complement reinterpretation,
i.e. reduction mod 2^64. -/

def fnvOffsetBasis : Nat := 14695981039346656037

def fnvPrime : Nat := 1099511628211

/-- One byte of Go `fnv.New64` (`sum64.Write`): multiply, then XOR. -/
def fnv1Step (h : Nat) (b : Fin 256) : Nat := ((h * fnvPrime) % 2 ^ 64) ^^^ b.val

/-- The digest `hash/fnv.New64` (FNV-1, 64-bit) computes over a byte string. -/
def fnv1 (bytes : List (Fin 256)) : Nat := bytes.foldl fnv1Step fnvOffsetBasis

/-- `Integer.HashKey` (`object.go`): `HashKey{INTEGER, uint64(i.Value)}`. -/
def integerHashKey (value : Int) : HashKey :=
  ⟨INTEGER_OBJ, (value % (2 ^ 64 : Int)).toNat⟩

/-- `Boolean.HashKey` (`object.go`). -/
def booleanHashKey (value : Bool) : HashKey :=
  ⟨BOOLEAN_OBJ, if value then 1 else 0⟩

/-- `String.HashKey` (`object.go`): FNV over the raw bytes via `fnv.New64`. -/
def stringHashKey (bytes : List (Fin 256)) : HashKey :=
  ⟨STRING_OBJ, fnv1 bytes⟩

/-- The `object.Hashable` capability check (`key.(object.Hashable)` type
assertions in the evaluator): only `Integer`, `Boolean` and `String`
implement `HashKey()`. -/
def hashKey? : Object → Option HashKey
  | .integerO v => some (integerHashKey v)
  | .booleanO b => some (booleanHashKey b)
  | .stringO s => some (stringHashKey s)
  | _ => none

/-! ## Environments (`src/object/environment.go`) -/

structure Environment where
  store : List (String × Option Object)
  outer : Option Nat

abbrev EnvStore := List Environment

/-- Go map read `e.store[key]`: `some v` with the stored value (itself a
possibly-nil `Object`) when present. -/
def storeLookup : List (String × Option Object) → String → Option (Option Object)
  | [], _ => none
  | (k, v) :: rest, key => if k = key then some v else storeLookup rest key

/-- Go map write `e.store[key] = val` (overwrite or insert). -/
def storeSet : List (String × Option Object) → String → Option Object →
    List (String × Option Object)
  | [], key, val => [(key, val)]
  | (k, v) :: rest, key, val =>
      if k = key then (k, val) :: rest else (k, v) :: storeSet rest key val

/-- `Environment.Get`, walking the `outer` chain, with explicit recursion
fuel (the chains built by the evaluator always point to strictly earlier
heap indices, so `es.length` steps suffice — see `envGet`). -/
def envGetFuel (es : EnvStore) : Nat → Nat → String → Option (Option Object)
  | 0, _, _ => none
  | fuel + 1, ref, key =>
    match es[ref]? with
    | none => none
    | some e =>
      match storeLookup e.store key with
      | some v => some v
      | none =>
        match e.outer with
        | some o => envGetFuel es fuel o key
        | none => none

/-- `Environment.Get`. -/
def envGet (es : EnvStore) (ref : Nat) (key : String) : Option (Option Object) :=
  envGetFuel es es.length ref key

/-- `Environment.IsKey`: current store first, then `outer.Get`. -/
def envIsKey (es : EnvStore) (ref : Nat) (key : String) : Bool :=
  match es[ref]? with
  | none => false
  | some e =>
    match storeLookup e.store key with
    | some _ => true
    | none =>
      match e.outer with
      | some o => (envGet es o key).isSome
      | none => false

/-- `Environment.Set`: writes into the store of the environment it is called
on — unconditionally the current one, never an outer one. -/
def envSet (es : EnvStore) (ref : Nat) (key : String) (val : Option Object) : EnvStore :=
  match es[ref]? with
  | none => es
  | some e => es.set ref { e with store := storeSet e.store key val }

/-- `object.NewEnvironment`. -/
def newEnvironment : Environment := ⟨[], none⟩

/-! ## Built-in functions (`src/evaluator/builtins.go`)

The Go table maps names to `*object.Builtin` closures; `builtinO` carries
the name and `applyBuiltin` dispatches on it.  `puts` prints its arguments'
`Inspect()` strings — the output is not modelled, only its result (`NULL`)
and the nil-dereference panic `Inspect()` would hit on a nil argument. -/

def builtinsLookup : String → Option Object
  | "len" => some (.builtinO "len")
  | "first" => some (.builtinO "first")
  | "last" => some (.builtinO "last")
  | "rest" => some (.builtinO "rest")
  | "push" => some (.builtinO "push")
  | "puts" => some (.builtinO "puts")
  | _ => none

def panicNil : String := "runtime error: invalid memory address or nil pointer dereference"

def applyBuiltin (name : String) (args : List (Option Object)) :
    Except String (Option Object) :=
  match name with
  | "len" =>
    match args with
    | [some (.arrayO elements)] => .ok (some (.integerO elements.length))
    | [some (.stringO s)] => .ok (some (.integerO s.length))
    | [some arg] =>
        .ok (some (.errorO ("argument to `len` not supported, got=" ++ typeOf arg)))
    | [none] => .error panicNil
    | _ => .ok (some (.errorO
        ("wrong number of arguments. got=" ++ toString args.length ++ ", want=1")))
  | "first" =>
    match args with
    | [some (.arrayO elements)] =>
        .ok (match elements with
             | e :: _ => e
             | [] => some .nullO)
    | [some arg] =>
        .ok (some (.errorO ("argument to `first` must be an ARRAY, got=" ++ typeOf arg)))
    | [none] => .error panicNil
    | _ => .ok (some (.errorO
        ("wrong number of arguments. got=" ++ toString args.length ++ ", want=1")))
  | "last" =>
    match args with
    | [some (.arrayO elements)] =>
        .ok (match elements.getLast? with
             | some e => e
             | none => some .nullO)
    | [some arg] =>
        .ok (some (.errorO ("argument to `last` must be an ARRAY, got=" ++ typeOf arg)))
    | [none] => .error panicNil
    | _ => .ok (some (.errorO
        ("wrong number of arguments. got=" ++ toString args.length ++ ", want=1")))
  | "rest" =>
    match args with
    | [some (.arrayO elements)] =>
        .ok (match elements with
             | _ :: tl => some (.arrayO tl)
             | [] => some .nullO)
    | [some arg] =>
        .ok (some (.errorO ("argument to `rest` must be an ARRAY, got=" ++ typeOf arg)))
    | [none] => .error panicNil
    | _ => .ok (some (.errorO
        ("wrong number of arguments. got=" ++ toString args.length ++ ", want=1")))
  | "push" =>
    match args with
    | [some (.arrayO elements), x] => .ok (some (.arrayO (elements ++ [x])))
    | [some arg, _] =>
        .ok (some (.errorO
          ("first argument to `push` must be an ARRAY, got=" ++ typeOf arg)))
    | [none, _] => .error panicNil
    | _ => .ok (some (.errorO "argument to push should be 2"))
  | "puts" =>
    if args.any (·.isNone) then .error panicNil else .ok (some .nullO)
  | _ => .error ("unknown builtin: " ++ name)

/-! ## Evaluator helpers (`src/evaluator/evaluator.go`) -/

/-- `isError`: non-nil and of `ERROR` type. -/
def isError : Option Object → Bool
  | some (.errorO _) => true
  | _ => false

/-- `nativeBoolToBooleanObject` (the `TRUE`/`FALSE` singletons). -/
def nativeBoolToBooleanObject (input : Bool) : Object := .booleanO input

/-- `isTruthy`: identity switch against the `NULL`/`TRUE`/`FALSE` singletons;
everything else — a Go `nil` included — falls to the `true` default. -/
def isTruthy : Option Object → Bool
  | some .nullO => false
  | some (.booleanO b) => b
  | _ => true

/-- Two's-complement wrap of Go `int64` arithmetic. -/
def wrap64 (x : Int) : Int := (x + 2 ^ 63) % 2 ^ 64 - 2 ^ 63

/-- `evalBangOperatorExpression`: an identity switch over the singletons;
any other value (a Go `nil` included) takes the default `FALSE` branch. -/
def evalBangOperatorExpression : Option Object → Object
  | some (.booleanO true) => .booleanO false
  | some (.booleanO false) => .booleanO true
  | some .nullO => .booleanO true
  | _ => .booleanO false

/-- `evalMinusPrefixOperator`; `right.Type()` dereferences a nil operand. -/
def evalMinusPrefixOperator : Option Object → Except String Object
  | none => .error panicNil
  | some (.integerO v) => .ok (.integerO (wrap64 (-v)))
  | some r => .ok (.errorO ("unknown operator: -" ++ typeOf r))

/-- `evalPrefixExpression`. -/
def evalPrefixExpression (operator : String) (right : Option Object) :
    Except String Object :=
  if operator = "!" then .ok (evalBangOperatorExpression right)
  else if operator = "-" then evalMinusPrefixOperator right
  else
    match right with
    | none => .error panicNil
    | some r => .ok (.errorO ("unknown operator: " ++ operator ++ typeOf r))

/-- `evalIntegerInfixExpression`.  `+ - *` wrap like Go `int64`; `/` is Go's
truncated division, and division by zero is a Go runtime panic (Go defines
`MinInt64 / -1` to wrap, matching `wrap64`). -/
def evalIntegerInfixExpression (operator : String) (leftVal rightVal : Int) :
    Except String Object :=
  if operator = "+" then .ok (.integerO (wrap64 (leftVal + rightVal)))
  else if operator = "-" then .ok (.integerO (wrap64 (leftVal - rightVal)))
  else if operator = "*" then .ok (.integerO (wrap64 (leftVal * rightVal)))
  else if operator = "/" then
    if rightVal = 0 then .error "runtime error: integer divide by zero"
    else .ok (.integerO (wrap64 (Int.tdiv leftVal rightVal)))
  else if operator = ">" then .ok (nativeBoolToBooleanObject (decide (rightVal < leftVal)))
  else if operator = "<" then .ok (nativeBoolToBooleanObject (decide (leftVal < rightVal)))
  else if operator = "==" then .ok (nativeBoolToBooleanObject (decide (leftVal = rightVal)))
  else if operator = "!=" then .ok (nativeBoolToBooleanObject (!decide (leftVal = rightVal)))
  else .ok (.errorO ("unknown operator: INTEGER " ++ operator ++ " INTEGER"))

/-- `evalStringInfixExpression` (both operands already known to be strings). -/
def evalStringInfixExpression (operator : String) (l r : List (Fin 256)) : Object :=
  if operator ≠ "+" then .errorO ("unknown operator: STRING " ++ operator ++ " STRING")
  else .stringO (l ++ r)

/-- Go pointer equality `left == right` as reachable from the `==`/`!=`
fallback cases of `evalInfixExpression` (operands are not both integers nor
both strings there).  For the shared `TRUE`/`FALSE`/`NULL` singletons pointer
identity is value identity; results of two distinct evaluations of any other
kind are freshly allocated and never pointer-equal.  (Aliasing the same
allocation through the environment, e.g. `x == x` on an array binding, is
the one situation this under-approximates; no claim depends on it.) -/
def objSameRef : Option Object → Option Object → Bool
  | some (.booleanO a), some (.booleanO b) => a == b
  | some .nullO, some .nullO => true
  | none, none => true
  | _, _ => false

/-- `evalInfixExpression`.  The Go `switch` evaluates its cases in order and
`&&` short-circuits, which determines exactly when a nil operand gets its
`.Type()` dereferenced (a panic). -/
def evalInfixExpression (operator : String) (left right : Option Object) :
    Except String Object :=
  match left with
  | none => .error panicNil
  | some l =>
    match l, right with
    | .integerO _, none => .error panicNil
    | .integerO lv, some (.integerO rv) => evalIntegerInfixExpression operator lv rv
    | .stringO _, none => .error panicNil
    | .stringO lv, some (.stringO rv) => .ok (evalStringInfixExpression operator lv rv)
    | _, _ =>
      if operator = "==" then .ok (nativeBoolToBooleanObject (objSameRef (some l) right))
      else if operator = "!=" then
        .ok (nativeBoolToBooleanObject (!objSameRef (some l) right))
      else
        match right with
        | none => .error panicNil
        | some r =>
          if typeOf l ≠ typeOf r then
            .ok (.errorO ("type mismatch: " ++ typeOf l ++ " " ++ operator ++ " " ++ typeOf r))
          else
            .ok (.errorO ("unknown operator: " ++ typeOf l ++ " " ++ operator ++ " " ++ typeOf r))

/-- `evalIdentifier`: environment chain first, then the builtins table, else
an `identifier not found:` error.  A `found` binding is returned even when it
stores Go `nil`. -/
def evalIdentifier (name : String) (ref : Nat) (es : EnvStore) : Option Object :=
  match envGet es ref name with
  | some v => v
  | none =>
    match builtinsLookup name with
    | some b => some b
    | none => some (.errorO ("identifier not found: " ++ name))

/-- `evalArrayIndexExpression`: out of range (negative or past the end)
yields `NULL`; otherwise the element (which may itself be a stored nil). -/
def evalArrayIndexExpression (elements : List (Option Object)) (idx : Int) :
    Option Object :=
  if idx < 0 ∨ (elements.length : Int) - 1 < idx then some .nullO
  else elements.getD idx.toNat none

/-- Go map read keyed by `HashKey`. -/
def hashLookup : List (HashKey × Object × Option Object) → HashKey →
    Option (Object × Option Object)
  | [], _ => none
  | (k, pr) :: rest, key => if k = key then some pr else hashLookup rest key

/-- Go map write keyed by `HashKey` (later duplicates overwrite). -/
def hashSet : List (HashKey × Object × Option Object) → HashKey →
    (Object × Option Object) → List (HashKey × Object × Option Object)
  | [], key, pr => [(key, pr)]
  | (k, old) :: rest, key, pr =>
      if k = key then (k, pr) :: rest else (k, old) :: hashSet rest key pr

/-- `evalHashIndexExpression`; a nil index panics inside the error
formatting (`index.Type()`), a non-hashable one yields the
`unusable as hash key:` error, a missing key yields `NULL`. -/
def evalHashIndexExpression (pairs : List (HashKey × Object × Option Object))
    (index : Option Object) : Except String (Option Object) :=
  match index with
  | none => .error panicNil
  | some idxObj =>
    match hashKey? idxObj with
    | none => .ok (some (.errorO ("unusable as hash key: " ++ typeOf idxObj)))
    | some hk =>
      match hashLookup pairs hk with
      | none => .ok (some .nullO)
      | some pr => .ok pr.2

/-- `evalIndexExpression`: `ARRAY` with `INTEGER` index, else `HASH`, else
`index operator not supported`.  The `&&` in the first Go case only
dereferences the index when the target is an array. -/
def evalIndexExpression (left index : Option Object) : Except String (Option Object) :=
  match left with
  | none => .error panicNil
  | some l =>
    match l, index with
    | .arrayO elements, some (.integerO i) => .ok (evalArrayIndexExpression elements i)
    | .arrayO _, none => .error panicNil
    | .arrayO _, some _ => .ok (some (.errorO "index operator not supported: ARRAY"))
    | .hashO pairs, idx => evalHashIndexExpression pairs idx
    | other, _ => .ok (some (.errorO ("index operator not supported: " ++ typeOf other)))

/-- `unwrapReturnValue`. -/
def unwrapReturnValue : Option Object → Option Object
  | some (.returnVO v) => v
  | o => o

/-- The parameter-binding loop of `extendedFunctionEnv`
(`env.Set(param.Value, args[i])` in order); the caller has already ruled out
the index-out-of-range panic. -/
def bindParams : List String → List (Option Object) →
    List (String × Option Object) → List (String × Option Object)
  | [], _, st => st
  | _ :: _, [], st => st
  | p :: ps, a :: as', st => bindParams ps as' (storeSet st p a)

/-- `newError` builds `object.Error`; evaluation results are `Option Object`
(Go `nil` is `none`) and panics travel in the `Except` error channel. -/
abbrev EvalRes := Except String (Option Object × EnvStore)

def fuelMsg : String := "out of fuel"

/-! ## The evaluator (`Eval` and its loops, `src/evaluator/evaluator.go`)

All functions take an explicit fuel that strictly decreases on every call,
so the mutual block is structurally recursive and kernel-reducible.  `evalE`
is Go's `Eval` on an expression node, `evalOptE` is `Eval` applied to a
possibly-nil child (`Eval(nil)` falls through the type switch and returns
`nil`), `evalS` is `Eval` on a statement node, `evalProgStmts` is
`evalProgram`'s loop, `evalBlockStmts` is `evalStatements`, `evalExprList`
is `evalExpressions` (note: it *appends* the error to the accumulated
list), `evalHashPairsList` is `evalHashLiteral`'s loop and `applyFunctionE`
is `applyFunction`. -/

mutual

def evalE : Nat → Expression → Nat → EnvStore → EvalRes
  | 0, _, _, _ => .error fuelMsg
  | fuel + 1, e, ref, es =>
    match e with
    | .ident name => .ok (evalIdentifier name ref es, es)
    | .integerLit v => .ok (some (.integerO v), es)
    | .booleanLit b => .ok (some (nativeBoolToBooleanObject b), es)
    | .stringLit s => .ok (some (.stringO s), es)
    | .prefixE operator right =>
      match evalOptE fuel right ref es with
      | .error p => .error p
      | .ok (r, es1) =>
        if isError r then .ok (r, es1)
        else
          match evalPrefixExpression operator r with
          | .error p => .error p
          | .ok v => .ok (some v, es1)
    | .infixE operator left right =>
      match evalOptE fuel left ref es with
      | .error p => .error p
      | .ok (l, es1) =>
        if isError l then .ok (l, es1)
        else
          match evalOptE fuel right ref es1 with
          | .error p => .error p
          | .ok (r, es2) =>
            if isError r then .ok (r, es2)
            else
              match evalInfixExpression operator l r with
              | .error p => .error p
              | .ok v => .ok (some v, es2)
    | .ifE condition consequence alternative =>
      match evalOptE fuel condition ref es with
      | .error p => .error p
      | .ok (c, es1) =>
        if isError c then .ok (c, es1)
        else if isTruthy c then evalBlockStmts fuel consequence none ref es1
        else
          match alternative with
          | some alt => evalBlockStmts fuel alt none ref es1
          | none => .ok (some .nullO, es1)
    | .functionLit parameters body => .ok (some (.functionO parameters body ref), es)
    | .callE function arguments =>
      match evalOptE fuel function ref es with
      | .error p => .error p
      | .ok (fn, es1) =>
        if isError fn then .ok (fn, es1)
        else
          match evalExprList fuel arguments [] ref es1 with
          | .error p => .error p
          | .ok (args, es2) =>
            match args with
            | [a] =>
              if isError a then .ok (a, es2) else applyFunctionE fuel fn [a] es2
            | _ => applyFunctionE fuel fn args es2
    | .arrayLit elementExprs =>
      match evalExprList fuel elementExprs [] ref es with
      | .error p => .error p
      | .ok (elements, es1) =>
        match elements with
        | [a] =>
          if isError a then .ok (a, es1) else .ok (some (.arrayO [a]), es1)
        | _ => .ok (some (.arrayO elements), es1)
    | .indexE left index =>
      match evalOptE fuel left ref es with
      | .error p => .error p
      | .ok (l, es1) =>
        if isError l then .ok (l, es1)
        else
          match evalOptE fuel index ref es1 with
          | .error p => .error p
          | .ok (i, es2) =>
            if isError i then .ok (i, es2)
            else
              match evalIndexExpression l i with
              | .error p => .error p
              | .ok v => .ok (v, es2)
    | .assignE name value =>
      match evalOptE fuel value ref es with
      | .error p => .error p
      | .ok (val, es1) =>
        if isError val then .ok (val, es1)
        else if !envIsKey es1 ref name then
          .ok (some (.errorO ("identifier not found `" ++ name ++ "`")), es1)
        else .ok (none, envSet es1 ref name val)
    | .hashLit pairs => evalHashPairsList fuel pairs [] ref es
termination_by structural fuel _ _ _ => fuel

def evalOptE : Nat → Option Expression → Nat → EnvStore → EvalRes
  | 0, _, _, _ => .error fuelMsg
  | fuel + 1, e, ref, es =>
    match e with
    | none => .ok (none, es)
    | some e' => evalE fuel e' ref es
termination_by structural fuel _ _ _ => fuel

def evalS : Nat → Statement → Nat → EnvStore → EvalRes
  | 0, _, _, _ => .error fuelMsg
  | fuel + 1, s, ref, es =>
    match s with
    | .exprS e => evalOptE fuel e ref es
    | .blockS statements => evalBlockStmts fuel statements none ref es
    | .returnS e =>
      match evalOptE fuel e ref es with
      | .error p => .error p
      | .ok (val, es1) =>
        if isError val then .ok (val, es1) else .ok (some (.returnVO val), es1)
    | .letS name e =>
      match evalOptE fuel e ref es with
      | .error p => .error p
      | .ok (val, es1) =>
        if isError val then .ok (val, es1) else .ok (none, envSet es1 ref name val)
termination_by structural fuel _ _ _ => fuel

def evalProgStmts : Nat → List Statement → Option Object → Nat → EnvStore → EvalRes
  | 0, _, _, _, _ => .error fuelMsg
  | fuel + 1, stmts, result, ref, es =>
    match stmts with
    | [] => .ok (result, es)
    | stmt :: rest =>
      match evalS fuel stmt ref es with
      | .error p => .error p
      | .ok (result', es1) =>
        match result' with
        | some (.returnVO v) => .ok (v, es1)
        | some (.errorO m) => .ok (some (.errorO m), es1)
        | _ => evalProgStmts fuel rest result' ref es1
termination_by structural fuel _ _ _ _ => fuel

def evalBlockStmts : Nat → List Statement → Option Object → Nat → EnvStore → EvalRes
  | 0, _, _, _, _ => .error fuelMsg
  | fuel + 1, stmts, result, ref, es =>
    match stmts with
    | [] => .ok (result, es)
    | stmt :: rest =>
      match evalS fuel stmt ref es with
      | .error p => .error p
      | .ok (result', es1) =>
        match result' with
        | some r =>
          if typeOf r = RETURN_VALUE_OBJ ∨ typeOf r = ERROR_OBJ then .ok (some r, es1)
          else evalBlockStmts fuel rest result' ref es1
        | none => evalBlockStmts fuel rest result' ref es1
termination_by structural fuel _ _ _ _ => fuel

def evalExprList : Nat → List (Option Expression) → List (Option Object) → Nat →
    EnvStore → Except String (List (Option Object) × EnvStore)
  | 0, _, _, _, _ => .error fuelMsg
  | fuel + 1, exps, acc, ref, es =>
    match exps with
    | [] => .ok (acc, es)
    | e :: rest =>
      match evalOptE fuel e ref es with
      | .error p => .error p
      | .ok (evaluated, es1) =>
        if isError evaluated then .ok (acc ++ [evaluated], es1)
        else evalExprList fuel rest (acc ++ [evaluated]) ref es1
termination_by structural fuel _ _ _ _ => fuel

def evalHashPairsList : Nat → List (Option Expression × Option Expression) →
    List (HashKey × Object × Option Object) → Nat → EnvStore → EvalRes
  | 0, _, _, _, _ => .error fuelMsg
  | fuel + 1, pairs, acc, ref, es =>
    match pairs with
    | [] => .ok (some (.hashO acc), es)
    | (kE, vE) :: rest =>
      match evalOptE fuel kE ref es with
      | .error p => .error p
      | .ok (key, es1) =>
        if isError key then .ok (key, es1)
        else
          match key with
          | none => .error panicNil
          | some keyObj =>
            match hashKey? keyObj with
            | none => .ok (some (.errorO ("unusable as hash key " ++ typeOf keyObj)), es1)
            | some hk =>
              match evalOptE fuel vE ref es1 with
              | .error p => .error p
              | .ok (val, es2) =>
                if isError val then .ok (val, es2)
                else evalHashPairsList fuel rest (hashSet acc hk (keyObj, val)) ref es2
termination_by structural fuel _ _ _ _ => fuel

def applyFunctionE : Nat → Option Object → List (Option Object) → EnvStore → EvalRes
  | 0, _, _, _ => .error fuelMsg
  | fuel + 1, fn, args, es =>
    match fn with
    | some (.functionO parameters body fnEnv) =>
      if args.length < parameters.length then .error "runtime error: index out of range"
      else
        let extendedEnv : Environment := ⟨bindParams parameters args [], some fnEnv⟩
        match evalBlockStmts fuel body none es.length (es ++ [extendedEnv]) with
        | .error p => .error p
        | .ok (evaluated, es1) => .ok (unwrapReturnValue evaluated, es1)
    | some (.builtinO name) =>
      match applyBuiltin name args with
      | .error p => .error p
      | .ok r => .ok (r, es)
    | some other => .ok (some (.errorO ("not a function: " ++ typeOf other)), es)
    | none => .error panicNil
termination_by structural fuel _ _ _ => fuel

end

/-- `evalProgram` on a `Program` node's statements, from a given root
environment. -/
def evalProgram (fuel : Nat) (statements : List Statement) (ref : Nat)
    (es : EnvStore) : EvalRes :=
  evalProgStmts fuel statements none ref es

/-- Evaluate a whole program in a fresh environment and keep only the final
value (the REPL renders exactly this). -/
def runProgram (fuel : Nat) (statements : List Statement) :
    Except String (Option Object) :=
  match evalProgram fuel statements 0 [newEnvironment] with
  | .error p => .error p
  | .ok (r, _) => .ok r

/-! ## The Pratt parser (`parser` package inside `src/evaluator/evaluator.go`)

The parser state carries Go's `currToken`/`peekToken` window, the not-yet
consumed remainder of the token stream (the lexer yields `EOF` forever once
the input is exhausted, modelled by padding with `eofToken`), and the
accumulated error list.  Parse functions return `none` where the Go
parselets return a nil AST node; a Go runtime panic — the unchecked
`left.(*ast.Identifier)` type assertion in `parseAssignExpression` — is the
`.error` branch.  One deliberate simplification: a Go parselet that fails
returns a *typed* nil which `ParseProgram`'s `stmt != nil` test does not
filter out; here failed statements are dropped from the statement list
(the error list, and everything any claim below measures, is unaffected). -/

structure ParserState where
  currToken : Token
  peekToken : Token
  rest : List Token
  errors : List String
deriving Repr

def eofToken : Token := ⟨.EOF, ""⟩

/-- `Parser.nextToken`. -/
def pNextToken (p : ParserState) : ParserState :=
  match p.rest with
  | [] => { p with currToken := p.peekToken, peekToken := eofToken }
  | t :: ts => { p with currToken := p.peekToken, peekToken := t, rest := ts }

/-- `parser.New` primes `currToken`/`peekToken` with two `nextToken` calls. -/
def newParser (tokens : List Token) : ParserState :=
  match tokens with
  | [] => ⟨eofToken, eofToken, [], []⟩
  | [t] => ⟨t, eofToken, [], []⟩
  | t1 :: t2 :: ts => ⟨t1, t2, ts, []⟩

/-! Precedence levels (`iota` in the Go source): LOWEST=1, EQUALS=2,
LESSGREATER=3, SUM=4, PRODUCT=5, unary=6, CALL=7, INDEX=8. -/

def precLowest : Nat := 1
def precEquals : Nat := 2
def precLessGreater : Nat := 3
def precSum : Nat := 4
def precProduct : Nat := 5
def precUnary : Nat := 6
def precCall : Nat := 7
def precIndex : Nat := 8

/-- The `precedences` table; absent kinds give `LOWEST`
(`peekPrecedence`/`currPrecedence`). -/
def precedenceOf : TokenType → Nat
  | .ASSIGN => precEquals
  | .EQ => precEquals
  | .NOT_EQ => precEquals
  | .LT => precLessGreater
  | .GT => precLessGreater
  | .PLUS => precSum
  | .MINUS => precSum
  | .SLASH => precProduct
  | .ASTERISK => precProduct
  | .LPAREN => precCall
  | .LBRACKET => precIndex
  | _ => precLowest

def addError (p : ParserState) (msg : String) : ParserState :=
  { p with errors := p.errors ++ [msg] }

/-- `expectPeek`: advance on a match, otherwise record `peekError`. -/
def expectPeek (p : ParserState) (t : TokenType) : Bool × ParserState :=
  if p.peekToken.type' = t then (true, pNextToken p)
  else (false, addError p ("Expected next token to be " ++ ttStr t ++ ", but got "
    ++ ttStr p.peekToken.type' ++ " instead"))

/-- `noPrefixParseFnError`. -/
def noPrefixParseFnError (p : ParserState) : ParserState :=
  addError p ("no prefix parse function for token " ++ ttStr p.currToken.type'
    ++ " `" ++ p.currToken.literal ++ "` found")

/-- Registered prefix parse functions (`registerPrefix` calls in `New`). -/
def hasPrefixFn : TokenType → Bool
  | .IDENT | .INT | .BANG | .MINUS | .TRUE | .FALSE | .LPAREN | .IF
  | .FUNCTION | .STRING | .LBRACKET | .LBRACE => true
  | _ => false

/-- Registered infix parse functions (`registerInfix` calls in `New`). -/
def hasInfixFn : TokenType → Bool
  | .PLUS | .MINUS | .SLASH | .ASTERISK | .EQ | .ASSIGN | .NOT_EQ | .LT | .GT
  | .LPAREN | .LBRACKET => true
  | _ => false

/-- Digit value for bases up to 16. -/
def digitVal (c : Char) : Option Nat :=
  if '0' ≤ c ∧ c ≤ '9' then some (c.toNat - 48)
  else if 'a' ≤ c ∧ c ≤ 'f' then some (c.toNat - 97 + 10)
  else if 'A' ≤ c ∧ c ≤ 'F' then some (c.toNat - 65 + 10)
  else none

def parseDigitsAux (base : Nat) : List Char → Nat → Option Nat
  | [], acc => some acc
  | c :: cs, acc =>
    match digitVal c with
    | some d => if d < base then parseDigitsAux base cs (acc * base + d) else none
    | none => none

def parseDigits (base : Nat) : List Char → Option Nat
  | [] => none
  | cs => parseDigitsAux base cs 0

/-- `strconv.ParseInt(lit, 0, 64)` as used by `parseIntegerLiteral`: base
inferred from the prefix (`0x`/`0X` hex, `0b`/`0B` binary, `0o`/`0O` octal,
a bare leading `0` octal, decimal otherwise), optional sign, 64-bit range
check.  Digit-group underscores, which Go accepts with base 0, are not
modelled — the lexer only ever emits plain digit runs. -/
def goParseIntLit (s : String) : Option Int :=
  let cs := s.toList
  let (sign, cs) : Int × List Char :=
    match cs with
    | '+' :: t => (1, t)
    | '-' :: t => (-1, t)
    | t => (1, t)
  let (base, digs) : Nat × List Char :=
    match cs with
    | '0' :: 'x' :: t => (16, t)
    | '0' :: 'X' :: t => (16, t)
    | '0' :: 'b' :: t => (2, t)
    | '0' :: 'B' :: t => (2, t)
    | '0' :: 'o' :: t => (8, t)
    | '0' :: 'O' :: t => (8, t)
    | '0' :: c :: t => (8, '0' :: c :: t)
    | t => (10, t)
  match parseDigits base digs with
  | none => none
  | some n =>
    let v : Int := sign * n
    if v < -(2 ^ 63) ∨ (2 ^ 63 : Int) - 1 < v then none else some v

/-- UTF-8 bytes of a Lean string, mirroring Go's `[]byte(s)` for the string
literal a token carries. -/
def charUtf8Bytes (c : Char) : List (Fin 256) :=
  let n := c.toNat
  if n < 0x80 then [⟨n % 256, Nat.mod_lt _ (by decide)⟩]
  else if n < 0x800 then
    [⟨(0xC0 + n / 64) % 256, Nat.mod_lt _ (by decide)⟩,
     ⟨(0x80 + n % 64) % 256, Nat.mod_lt _ (by decide)⟩]
  else if n < 0x10000 then
    [⟨(0xE0 + n / 4096) % 256, Nat.mod_lt _ (by decide)⟩,
     ⟨(0x80 + n / 64 % 64) % 256, Nat.mod_lt _ (by decide)⟩,
     ⟨(0x80 + n % 64) % 256, Nat.mod_lt _ (by decide)⟩]
  else
    [⟨(0xF0 + n / 262144) % 256, Nat.mod_lt _ (by decide)⟩,
     ⟨(0x80 + n / 4096 % 64) % 256, Nat.mod_lt _ (by decide)⟩,
     ⟨(0x80 + n / 64 % 64) % 256, Nat.mod_lt _ (by decide)⟩,
     ⟨(0x80 + n % 64) % 256, Nat.mod_lt _ (by decide)⟩]

def strBytes (s : String) : List (Fin 256) :=
  (s.toList.map charUtf8Bytes).flatten

/-- The Go panic raised by `parseAssignExpression`'s unchecked
`left.(*ast.Identifier)` type assertion when the left operand of `=` is not
an identifier (or is nil). -/
def assignPanicMsg : String :=
  "interface conversion: ast.Expression is not *ast.Identifier"

abbrev PRes (α : Type) := Except String (α × ParserState)

/-- `parseFunctionParameters`' comma loop (reads the *literal* of whatever
token follows each comma — the Go code never checks it is an `IDENT`). -/
def parseFunctionParamsLoop : Nat → ParserState → List String →
    List String × ParserState
  | 0, p, acc => (acc, p)
  | fuel + 1, p, acc =>
    if p.peekToken.type' = .COMMA then
      let p1 := pNextToken (pNextToken p)
      parseFunctionParamsLoop fuel p1 (acc ++ [p1.currToken.literal])
    else (acc, p)

/-- `parseFunctionParameters`; on a failed closing-`RPAREN` it returns Go's
nil slice, modelled as `[]`. -/
def parseFunctionParametersFn (fuel : Nat) (p : ParserState) :
    List String × ParserState :=
  if p.peekToken.type' = .RPAREN then ([], pNextToken p)
  else
    let p1 := pNextToken p
    let (idents, p2) := parseFunctionParamsLoop fuel p1 [p1.currToken.literal]
    match expectPeek p2 .RPAREN with
    | (false, p3) => ([], p3)
    | (true, p3) => (idents, p3)

mutual

/-- `parseStatement`. -/
def parseStatement : Nat → ParserState → PRes (Option Statement)
  | 0, _ => .error fuelMsg
  | fuel + 1, p =>
    match p.currToken.type' with
    | .LET => parseLetStatement fuel p
    | .RETURN => parseReturnStatement fuel p
    | _ => parseExpressionStatement fuel p

/-- `parseLetStatement`. -/
def parseLetStatement : Nat → ParserState → PRes (Option Statement)
  | 0, _ => .error fuelMsg
  | fuel + 1, p =>
    match expectPeek p .IDENT with
    | (false, p1) => .ok (none, p1)
    | (true, p1) =>
      let name := p1.currToken.literal
      match expectPeek p1 .ASSIGN with
      | (false, p2) => .ok (none, p2)
      | (true, p2) =>
        match parseExpression fuel precLowest (pNextToken p2) with
        | .error m => .error m
        | .ok (value, p3) =>
          let p4 := if p3.peekToken.type' = .SEMICOLON then pNextToken p3 else p3
          .ok (some (.letS name value), p4)

/-- `parseReturnStatement`. -/
def parseReturnStatement : Nat → ParserState → PRes (Option Statement)
  | 0, _ => .error fuelMsg
  | fuel + 1, p =>
    match parseExpression fuel precLowest (pNextToken p) with
    | .error m => .error m
    | .ok (value, p1) =>
      let p2 := if p1.peekToken.type' = .SEMICOLON then pNextToken p1 else p1
      .ok (some (.returnS value), p2)

/-- `parseExpressionStatement`. -/
def parseExpressionStatement : Nat → ParserState → PRes (Option Statement)
  | 0, _ => .error fuelMsg
  | fuel + 1, p =>
    match parseExpression fuel precLowest p with
    | .error m => .error m
    | .ok (e, p1) =>
      let p2 := if p1.peekToken.type' = .SEMICOLON then pNextToken p1 else p1
      .ok (some (.exprS e), p2)

/-- `parseExpression`: prefix dispatch (recording
`noPrefixParseFnError` and returning nil when the table has no entry),
then the Pratt loop. -/
def parseExpression : Nat → Nat → ParserState → PRes (Option Expression)
  | 0, _, _ => .error fuelMsg
  | fuel + 1, prec, p =>
    if hasPrefixFn p.currToken.type' = false then .ok (none, noPrefixParseFnError p)
    else
      match parsePrefixDispatch fuel p with
      | .error m => .error m
      | .ok (left, p1) => parseExpressionLoop fuel prec left p1

/-- The registered prefix parselets, dispatched on `currToken` like the Go
`prefixParseFns` table. -/
def parsePrefixDispatch : Nat → ParserState → PRes (Option Expression)
  | 0, _ => .error fuelMsg
  | fuel + 1, p =>
    match p.currToken.type' with
    | .IDENT => .ok (some (.ident p.currToken.literal), p)
    | .INT =>
      match goParseIntLit p.currToken.literal with
      | some v => .ok (some (.integerLit v), p)
      | none =>
        .ok (none, addError p ("Could not parse \"" ++ p.currToken.literal
          ++ "\" as integer"))
    | .BANG =>
      match parseExpression fuel precUnary (pNextToken p) with
      | .error m => .error m
      | .ok (right, p1) => .ok (some (.prefixE p.currToken.literal right), p1)
    | .MINUS =>
      match parseExpression fuel precUnary (pNextToken p) with
      | .error m => .error m
      | .ok (right, p1) => .ok (some (.prefixE p.currToken.literal right), p1)
    | .TRUE => .ok (some (.booleanLit true), p)
    | .FALSE => .ok (some (.booleanLit false), p)
    | .LPAREN =>
      match parseExpression fuel precLowest (pNextToken p) with
      | .error m => .error m
      | .ok (e, p1) =>
        match expectPeek p1 .RPAREN with
        | (false, p2) => .ok (none, p2)
        | (true, p2) => .ok (e, p2)
    | .IF => parseIfExpressionFn fuel p
    | .FUNCTION => parseFunctionLiteralFn fuel p
    | .STRING => .ok (some (.stringLit (strBytes p.currToken.literal)), p)
    | .LBRACKET =>
      match parseExpressionListFn fuel .RBRACKET p with
      | .error m => .error m
      | .ok (elements, p1) => .ok (some (.arrayLit elements), p1)
    | .LBRACE => parseHashLiteralFn fuel p
    | _ => .ok (none, p)

/-- `parseExpression`'s Pratt loop: while the peek token is not a semicolon
and binds strictly tighter than `prec`, consume it and run its infix
parselet (threading the current — possibly nil — left expression). -/
def parseExpressionLoop : Nat → Nat → Option Expression → ParserState →
    PRes (Option Expression)
  | 0, _, _, _ => .error fuelMsg
  | fuel + 1, prec, left, p =>
    if p.peekToken.type' ≠ .SEMICOLON ∧ prec < precedenceOf p.peekToken.type' then
      if hasInfixFn p.peekToken.type' then
        match parseInfixDispatch fuel left (pNextToken p) with
        | .error m => .error m
        | .ok (left', p1) => parseExpressionLoop fuel prec left' p1
      else .ok (left, p)
    else .ok (left, p)

/-- The registered infix parselets, dispatched on the (just consumed)
operator token.  The `ASSIGN` entry is `parseAssignExpression`, whose
unchecked `left.(*ast.Identifier)` type assertion panics when the left
operand is not an identifier node. -/
def parseInfixDispatch : Nat → Option Expression → ParserState →
    PRes (Option Expression)
  | 0, _, _ => .error fuelMsg
  | fuel + 1, left, p =>
    match p.currToken.type' with
    | .LPAREN =>
      match parseExpressionListFn fuel .RPAREN p with
      | .error m => .error m
      | .ok (args, p1) => .ok (some (.callE left args), p1)
    | .LBRACKET =>
      match parseExpression fuel precLowest (pNextToken p) with
      | .error m => .error m
      | .ok (idx, p1) =>
        match expectPeek p1 .RBRACKET with
        | (false, p2) => .ok (none, p2)
        | (true, p2) => .ok (some (.indexE left idx), p2)
    | .ASSIGN =>
      match left with
      | some (.ident name) =>
        match parseExpression fuel precLowest (pNextToken p) with
        | .error m => .error m
        | .ok (value, p1) => .ok (some (.assignE name value), p1)
      | _ => .error assignPanicMsg
    | _ =>
      match parseExpression fuel (precedenceOf p.currToken.type') (pNextToken p) with
      | .error m => .error m
      | .ok (right, p1) => .ok (some (.infixE p.currToken.literal left right), p1)

/-- `parseIfExpression`. -/
def parseIfExpressionFn : Nat → ParserState → PRes (Option Expression)
  | 0, _ => .error fuelMsg
  | fuel + 1, p =>
    match expectPeek p .LPAREN with
    | (false, p1) => .ok (none, p1)
    | (true, p1) =>
      match parseExpression fuel precLowest (pNextToken p1) with
      | .error m => .error m
      | .ok (condition, p2) =>
        match expectPeek p2 .RPAREN with
        | (false, p3) => .ok (none, p3)
        | (true, p3) =>
          match expectPeek p3 .LBRACE with
          | (false, p4) => .ok (none, p4)
          | (true, p4) =>
            match parseBlockStatementFn fuel p4 with
            | .error m => .error m
            | .ok (consequence, p5) =>
              if p5.peekToken.type' = .ELSE then
                match expectPeek (pNextToken p5) .LBRACE with
                | (false, p6) => .ok (none, p6)
                | (true, p6) =>
                  match parseBlockStatementFn fuel p6 with
                  | .error m => .error m
                  | .ok (alternative, p7) =>
                    .ok (some (.ifE condition consequence (some alternative)), p7)
              else .ok (some (.ifE condition consequence none), p5)

/-- `parseBlockStatement`. -/
def parseBlockStatementFn : Nat → ParserState → Except String (List Statement × ParserState)
  | 0, _ => .error fuelMsg
  | fuel + 1, p => parseBlockLoop fuel (pNextToken p) []

/-- `parseBlockStatement`'s loop: until `RBRACE` or `EOF`. -/
def parseBlockLoop : Nat → ParserState → List Statement →
    Except String (List Statement × ParserState)
  | 0, _, _ => .error fuelMsg
  | fuel + 1, p, acc =>
    if p.currToken.type' = .RBRACE ∨ p.currToken.type' = .EOF then .ok (acc, p)
    else
      match parseStatement fuel p with
      | .error m => .error m
      | .ok (stmtOpt, p1) =>
        let acc' := match stmtOpt with
          | some s => acc ++ [s]
          | none => acc
        parseBlockLoop fuel (pNextToken p1) acc'

/-- `parseFunctionLiteral`. -/
def parseFunctionLiteralFn : Nat → ParserState → PRes (Option Expression)
  | 0, _ => .error fuelMsg
  | fuel + 1, p =>
    match expectPeek p .LPAREN with
    | (false, p1) => .ok (none, p1)
    | (true, p1) =>
      match parseFunctionParametersFn fuel p1 with
      | (parameters, p2) =>
        match expectPeek p2 .LBRACE with
        | (false, p3) => .ok (none, p3)
        | (true, p3) =>
          match parseBlockStatementFn fuel p3 with
          | .error m => .error m
          | .ok (body, p4) => .ok (some (.functionLit parameters body), p4)

/-- `parseExpressionList` (array elements and call arguments); a failed
closing token returns Go's nil slice, modelled as `[]`. -/
def parseExpressionListFn : Nat → TokenType → ParserState →
    Except String (List (Option Expression) × ParserState)
  | 0, _, _ => .error fuelMsg
  | fuel + 1, endToken, p =>
    if p.peekToken.type' = endToken then .ok ([], pNextToken p)
    else
      match parseExpression fuel precLowest (pNextToken p) with
      | .error m => .error m
      | .ok (first, p1) => parseExprListLoop fuel endToken p1 [first]

/-- `parseExpressionList`'s comma loop. -/
def parseExprListLoop : Nat → TokenType → ParserState → List (Option Expression) →
    Except String (List (Option Expression) × ParserState)
  | 0, _, _, _ => .error fuelMsg
  | fuel + 1, endToken, p, acc =>
    if p.peekToken.type' = .COMMA then
      match parseExpression fuel precLowest (pNextToken (pNextToken p)) with
      | .error m => .error m
      | .ok (e, p1) => parseExprListLoop fuel endToken p1 (acc ++ [e])
    else
      match expectPeek p endToken with
      | (false, p1) => .ok ([], p1)
      | (true, p1) => .ok (acc, p1)

/-- `parseHashLiteral`. -/
def parseHashLiteralFn : Nat → ParserState → PRes (Option Expression)
  | 0, _ => .error fuelMsg
  | fuel + 1, p => parseHashPairsLoop fuel p []

/-- `parseHashLiteral`'s pair loop (`key : value` separated by commas until
`RBRACE`; the `&&` short-circuit skips the comma check when the peek token
already closes the literal). -/
def parseHashPairsLoop : Nat → ParserState →
    List (Option Expression × Option Expression) → PRes (Option Expression)
  | 0, _, _ => .error fuelMsg
  | fuel + 1, p, acc =>
    if p.peekToken.type' = .RBRACE then
      match expectPeek p .RBRACE with
      | (false, p1) => .ok (none, p1)
      | (true, p1) => .ok (some (.hashLit acc), p1)
    else
      match parseExpression fuel precLowest (pNextToken p) with
      | .error m => .error m
      | .ok (k, p1) =>
        match expectPeek p1 .COLON with
        | (false, p2) => .ok (none, p2)
        | (true, p2) =>
          match parseExpression fuel precLowest (pNextToken p2) with
          | .error m => .error m
          | .ok (v, p3) =>
            if p3.peekToken.type' = .RBRACE then parseHashPairsLoop fuel p3 (acc ++ [(k, v)])
            else
              match expectPeek p3 .COMMA with
              | (false, p4) => .ok (none, p4)
              | (true, p4) => parseHashPairsLoop fuel p4 (acc ++ [(k, v)])

end

/-- `ParseProgram`'s statement loop. -/
def parseProgramLoop : Nat → ParserState → List Statement →
    Except String (List Statement × ParserState)
  | 0, _, _ => .error fuelMsg
  | fuel + 1, p, acc =>
    if p.currToken.type' = .EOF then .ok (acc, p)
    else
      match parseStatement fuel p with
      | .error m => .error m
      | .ok (stmtOpt, p1) =>
        let acc' := match stmtOpt with
          | some s => acc ++ [s]
          | none => acc
        parseProgramLoop fuel (pNextToken p1) acc'

/-- `ParseProgram` from a token stream: the resulting statements and the
accumulated parse errors (`p.Errors()`), or a Go runtime panic. -/
def parseProgramTokens (fuel : Nat) (tokens : List Token) :
    Except String (List Statement × List String) :=
  match parseProgramLoop fuel (newParser tokens) [] with
  | .error m => .error m
  | .ok (stmts, p) => .ok (stmts, p.errors)

/-! ## Specification-side definitions and concrete programs -/

/-- One byte of FNV-1a: XOR first, then multiply (what the spec *names* for
`String.HashKey`; the implementation actually uses `fnv.New64`, i.e. FNV-1
as in `fnv1Step`).  This definition follows the spec's words, to be compared
against `fnv1`. -/
def fnv1aStep (h : Nat) (b : Fin 256) : Nat := ((h ^^^ b.val) * fnvPrime) % 2 ^ 64

/-- The FNV-1a 64-bit digest named by the spec, following the spec's words. -/
def fnv1aSpec (bytes : List (Fin 256)) : Nat := bytes.foldl fnv1aStep fnvOffsetBasis

/-- The hashable values of claim C5, with `Integer` carrying an `int64`
value as in the Go object model. -/
def hashableInt64 : Object → Prop
  | .integerO i => -(2 ^ 63) ≤ i ∧ i < 2 ^ 63
  | .booleanO _ => True
  | .stringO _ => True
  | _ => False

/-- The AST of the seed program
`if (10 > 1) { if (10 > 1) { return 10; } return 1; }`. -/
def nestedIfProg : List Statement :=
  [.exprS (some (.ifE (some (.infixE ">" (some (.integerLit 10)) (some (.integerLit 1))))
    [.exprS (some (.ifE (some (.infixE ">" (some (.integerLit 10)) (some (.integerLit 1))))
       [.returnS (some (.integerLit 10))] none)),
     .returnS (some (.integerLit 1))]
    none))]

/-- The AST of the seed program
`let a = [1, 2, 3, 4]; let b = push(a, 5); len(a) + len(b);`. -/
def pushProg : List Statement :=
  [.letS "a" (some (.arrayLit [some (.integerLit 1), some (.integerLit 2),
      some (.integerLit 3), some (.integerLit 4)])),
   .letS "b" (some (.callE (some (.ident "push")) [some (.ident "a"), some (.integerLit 5)])),
   .exprS (some (.infixE "+"
     (some (.callE (some (.ident "len")) [some (.ident "a")]))
     (some (.callE (some (.ident "len")) [some (.ident "b")]))))]

/-! ## Supporting lemmas -/

theorem fnv1Step_lt (h : Nat) (b : Fin 256) : fnv1Step h b < 2 ^ 64 := by
  have h1 : (h * fnvPrime) % 2 ^ 64 < 2 ^ 64 := Nat.mod_lt _ (by norm_num)
  have h2 : b.val < 2 ^ 64 := lt_of_lt_of_le b.isLt (by norm_num)
  exact Nat.xor_lt_two_pow h1 h2

theorem fnv1_foldl_lt (l : List (Fin 256)) (h : Nat) (hh : h < 2 ^ 64) :
    l.foldl fnv1Step h < 2 ^ 64 := by
  induction l generalizing h with
  | nil => simpa using hh
  | cons b t ih => exact ih _ (fnv1Step_lt _ _)

theorem fnv1_lt (l : List (Fin 256)) : fnv1 l < 2 ^ 64 :=
  fnv1_foldl_lt l fnvOffsetBasis (by decide)

/-- The 64-bit FNV-1 digest cannot be injective: there are more byte strings
of length 9 than 64-bit values, so two distinct byte strings share a digest. -/
theorem fnv1_collision : ∃ l l' : List (Fin 256), l ≠ l' ∧ fnv1 l = fnv1 l' := by
  obtain ⟨g, g', hne, heq⟩ :=
    Fintype.exists_ne_map_eq_of_card_lt
      (fun g : Fin 9 → Fin 256 => (⟨fnv1 (List.ofFn g), fnv1_lt _⟩ : Fin (2 ^ 64)))
      (by simp only [Fintype.card_fun, Fintype.card_fin]; norm_num)
  refine ⟨List.ofFn g, List.ofFn g', ?_, ?_⟩
  · intro h
    exact hne (List.ofFn_inj.mp h)
  · exact congrArg Fin.val heq

/-! ## Claims -/

/-- C1 (code bug): the claim says that when an argument/element errors, the
list returned to the caller is a ONE-element list holding exactly that
error, which the caller surfaces, so the error never appears inside an
argument list or array.  The code appends the error to the already
accumulated values instead, so for `[1, foobar]` the caller's
`len(args) == 1` test misses the error and the Array is built with the
error object inside it; for `let f = fn(x, y) { x; }; f(1, foobar);` the
error is silently bound to `y` and the call returns `1`. -/
theorem C1_error_embedded_in_list :
    runProgram 10 [.exprS (some (.arrayLit [some (.integerLit 1), some (.ident "foobar")]))]
      = .ok (some (.arrayO [some (.integerO 1),
          some (.errorO "identifier not found: foobar")]))
    ∧ runProgram 20 [.letS "f" (some (.functionLit ["x", "y"] [.exprS (some (.ident "x"))])),
        .exprS (some (.callE (some (.ident "f")) [some (.integerLit 1), some (.ident "foobar")]))]
      = .ok (some (.integerO 1)) := ⟨rfl, rfl⟩

/-- C2 counterexample: `x` is bound only in the outer scope (heap index 0)
and `x = 10` is evaluated in the inner scope (index 1, whose `outer` is 0).
The assignment succeeds, but the outer binding of `x` still holds `5` — the
write landed in the inner scope, so the claim's "writes to the innermost
scope that currently binds x (mutating the outer binding)" is false. -/
theorem C2_counterexample :
    evalE 5 (.assignE "x" (some (.integerLit 10))) 1
      [⟨[("x", some (.integerO 5))], none⟩, ⟨[], some 0⟩]
      = .ok (none, [⟨[("x", some (.integerO 5))], none⟩, ⟨[("x", some (.integerO 10))], some 0⟩])
    ∧ (some (Object.integerO 5) : Option Object) ≠ some (.integerO 10) := by
  refine ⟨rfl, ?_⟩
  intro h
  injection h with h1
  injection h1 with h2
  exact absurd h2 (by decide)

/-- C2 (amended): an assignment whose name is resolvable somewhere in the
chain succeeds but writes to the *current* (innermost) scope
unconditionally, shadowing rather than mutating an outer binding, exactly
like `let`; every other environment in the heap is untouched.  If the name
is resolvable nowhere, the assignment yields the
`identifier not found \`name\`` error. -/
theorem C2_assignment_writes_current_scope
    (fuel : Nat) (name : String) (vE : Option Expression) (ref : Nat)
    (es es1 : EnvStore) (v : Option Object)
    (hval : evalOptE fuel vE ref es = .ok (v, es1))
    (hne : isError v = false) :
    (envIsKey es1 ref name = true →
      evalE (fuel + 1) (.assignE name vE) ref es = .ok (none, envSet es1 ref name v))
    ∧ (envIsKey es1 ref name = false →
      evalE (fuel + 1) (.assignE name vE) ref es
        = .ok (some (.errorO ("identifier not found `" ++ name ++ "`")), es1))
    ∧ (∀ j, j ≠ ref → (envSet es1 ref name v)[j]? = es1[j]?)
    ∧ (∀ e, es1[ref]? = some e →
        (envSet es1 ref name v)[ref]? = some ⟨storeSet e.store name v, e.outer⟩) := by
  refine ⟨?_, ?_, ?_, ?_⟩
  · intro hk
    simp only [evalE, hval, hne, hk]
    simp
  · intro hk
    simp only [evalE, hval, hne, hk]
    simp
  · intro j hj
    unfold envSet
    match h : es1[ref]? with
    | none => rfl
    | some e => simp [List.getElem?_set_ne (Ne.symm hj)]
  · intro e he
    unfold envSet
    rw [he]
    have hlen : ref < es1.length := (List.getElem?_eq_some.mp he).1
    exact List.getElem?_set_eq_of_lt _ hlen

/-- C2 witness. -/
theorem C2_assignment_witness :
    evalE 4 (.assignE "x" (some (.integerLit 7))) 0 [⟨[("x", some (.integerO 1))], none⟩]
      = .ok (none, envSet [⟨[("x", some (.integerO 1))], none⟩] 0 "x" (some (.integerO 7))) :=
  (C2_assignment_writes_current_scope 3 "x" (some (.integerLit 7)) 0 _ _ _ rfl rfl).1 rfl

/-- C3 (code bug): on the token stream of `5 = 3` the parser does not
resynchronise through the error list — `parseAssignExpression`'s unchecked
`left.(*ast.Identifier)` type assertion panics, so `ParseProgram` aborts
instead of returning a Program with accumulated errors. -/
theorem C3_parser_panics_on_nonident_assign :
    parseProgramTokens 20 [⟨.INT, "5"⟩, ⟨.ASSIGN, "="⟩, ⟨.INT, "3"⟩]
      = .error assignPanicMsg := rfl

/-- C4 counterexample: for the one-byte string "a" the digest computed by
`String.HashKey` (Go `fnv.New64`, FNV-1) differs from the FNV-1a digest the
claim names. -/
theorem C4_counterexample :
    hashKey? (.stringO [(97 : Fin 256)])
      ≠ some ⟨STRING_OBJ, fnv1aSpec [(97 : Fin 256)]⟩ := by decide

/-- C4 (amended): `hash_key` of a String is (STRING, the 64-bit FNV-**1**
digest of the raw bytes — multiply then XOR); of an Integer it is (INTEGER,
the signed value reinterpreted as unsigned: `i` itself when nonnegative,
`2^64 + i` when negative); of a Boolean it is (BOOLEAN, 1 for true, 0 for
false). -/
theorem C4_hash_key_digests (s : List (Fin 256)) (i : Int)
    (hlo : -(2 ^ 63) ≤ i) (hhi : i < 2 ^ 63) :
    hashKey? (.stringO s) = some ⟨STRING_OBJ, fnv1 s⟩
    ∧ hashKey? (.integerO i)
        = some ⟨INTEGER_OBJ, (if 0 ≤ i then i else 2 ^ 64 + i).toNat⟩
    ∧ hashKey? (.booleanO true) = some ⟨BOOLEAN_OBJ, 1⟩
    ∧ hashKey? (.booleanO false) = some ⟨BOOLEAN_OBJ, 0⟩ := by
  refine ⟨rfl, ?_, rfl, rfl⟩
  simp only [hashKey?, integerHashKey, Option.some.injEq, HashKey.mk.injEq, true_and]
  have hmod : i % (2 ^ 64 : Int) = if 0 ≤ i then i else 2 ^ 64 + i := by
    split <;> omega
  rw [hmod]

/-- C4 witness: the reinterpretation at `i = -5`. -/
theorem C4_hash_key_digests_witness :
    hashKey? (.integerO (-5)) = some ⟨INTEGER_OBJ, 18446744073709551611⟩ := by
  have h := (C4_hash_key_digests [] (-5) (by decide) (by decide)).2.1
  simpa using h

/-- C5 counterexample: `hash_key(v) = hash_key(v')` does **not** imply that
`v` and `v'` are value-equal — there are more 9-byte strings than 64-bit
digests, so two distinct String values share a hash key (`fnv1_collision`). -/
theorem C5_counterexample :
    ¬ (∀ v v' : Object, hashableInt64 v → hashableInt64 v' →
        (hashKey? v = hashKey? v' ↔ v = v')) := by
  intro hclaim
  obtain ⟨l, l', hne, heq⟩ := fnv1_collision
  have h := hclaim (.stringO l) (.stringO l') trivial trivial
  have heq' : Object.stringO l = .stringO l' :=
    h.mp (by simp [hashKey?, stringHashKey, heq])
  cases heq'
  exact hne rfl

/-- C5 (amended): equal values give equal hash keys; conversely equal hash
keys imply the same kind (the kind tag is part of the key), and within the
Integer and Boolean kinds they imply value equality; only two distinct
String values may share a hash key (a 64-bit digest collision). -/
theorem C5_hash_key_equality (v v' : Object) (i i' : Int) (b b' : Bool)
    (s s' : List (Fin 256))
    (hlo : -(2 ^ 63) ≤ i) (hhi : i < 2 ^ 63)
    (hlo' : -(2 ^ 63) ≤ i') (hhi' : i' < 2 ^ 63) :
    (v = v' → hashKey? v = hashKey? v')
    ∧ (hashKey? (.integerO i) = hashKey? (.integerO i') → i = i')
    ∧ (hashKey? (.booleanO b) = hashKey? (.booleanO b') → b = b')
    ∧ hashKey? (.integerO i) ≠ hashKey? (.booleanO b)
    ∧ hashKey? (.integerO i) ≠ hashKey? (.stringO s)
    ∧ hashKey? (.booleanO b) ≠ hashKey? (.stringO s') := by
  refine ⟨fun h => by rw [h], ?_, ?_, ?_, ?_, ?_⟩
  · intro h
    simp only [hashKey?, integerHashKey, Option.some.injEq, HashKey.mk.injEq, true_and] at h
    omega
  · intro h
    cases b <;> cases b' <;> simp_all [hashKey?, booleanHashKey]
  · intro h
    injection h with h1
    injection h1 with h2 h3
    exact absurd h2 (by decide)
  · intro h
    injection h with h1
    injection h1 with h2 h3
    exact absurd h2 (by decide)
  · intro h
    injection h with h1
    injection h1 with h2 h3
    exact absurd h2 (by decide)

/-- C5 witness: concrete instances of the amended equivalence. -/
theorem C5_hash_key_equality_witness :
    hashKey? (.integerO 3) ≠ hashKey? (.booleanO true) :=
  (C5_hash_key_equality (.booleanO true) (.booleanO true) 3 3 true true [] []
    (by decide) (by decide) (by decide) (by decide)).2.2.2.1

/-- C6 (confirmed): when a statement yields `ReturnValue v`, the program
loop stops and returns `v` unwrapped while the block loop returns the
`ReturnValue` wrapper untouched; an `Error` stops both and is returned as
is; consequently `if (10 > 1) { if (10 > 1) { return 10; } return 1; }`
evaluates to `10`. -/
theorem C6_return_propagation (fuel : Nat) (stmt : Statement) (rest : List Statement)
    (r0 v : Option Object) (m : String) (ref : Nat) (es es1 : EnvStore) :
    (evalS fuel stmt ref es = .ok (some (.returnVO v), es1) →
       evalProgStmts (fuel + 1) (stmt :: rest) r0 ref es = .ok (v, es1)
       ∧ evalBlockStmts (fuel + 1) (stmt :: rest) r0 ref es = .ok (some (.returnVO v), es1))
    ∧ (evalS fuel stmt ref es = .ok (some (.errorO m), es1) →
       evalProgStmts (fuel + 1) (stmt :: rest) r0 ref es = .ok (some (.errorO m), es1)
       ∧ evalBlockStmts (fuel + 1) (stmt :: rest) r0 ref es = .ok (some (.errorO m), es1))
    ∧ runProgram 20 nestedIfProg = .ok (some (.integerO 10)) := by
  refine ⟨?_, ?_, rfl⟩
  · intro h
    constructor
    · simp only [evalProgStmts, h]
    · simp only [evalBlockStmts, h]
      simp [typeOf, RETURN_VALUE_OBJ]
  · intro h
    constructor
    · simp only [evalProgStmts, h]
    · simp only [evalBlockStmts, h]
      simp [typeOf, ERROR_OBJ]

/-- C6 witness. -/
theorem C6_return_propagation_witness :
    evalProgStmts 4 [.returnS (some (.integerLit 10))] none 0 [newEnvironment]
      = .ok (some (.integerO 10), [newEnvironment]) :=
  ((C6_return_propagation 3 (.returnS (some (.integerLit 10))) [] none
    (some (.integerO 10)) "" 0 [newEnvironment] [newEnvironment]).1 rfl).1

/-- C7 (confirmed): `push(a, x)` builds a new array consisting of the
elements of `a` followed by `x` (the original array value is not modified —
arrays are copied, never mutated, by every builtin), and the seed program
`let a = [1, 2, 3, 4]; let b = push(a, 5); len(a) + len(b);` evaluates to
`9`, showing `len(a)` is still `4` after the push. -/
theorem C7_push_fresh_array (elements : List (Option Object)) (x : Object) :
    applyBuiltin "push" [some (.arrayO elements), some x]
      = .ok (some (.arrayO (elements ++ [some x])))
    ∧ runProgram 20 pushProg = .ok (some (.integerO 9)) := ⟨rfl, rfl⟩

/-- C8 (confirmed): identifier resolution walks the environment chain
innermost-first (an innermost hit wins without consulting `outer`; a miss
recurses into `outer`), falls back to the builtins table only when the
chain has no binding (so a user binding shadows a builtin of the same
name), and otherwise produces `identifier not found: <name>` — as the
evaluation of `foobar` in a fresh environment shows. -/
theorem C8_identifier_resolution (fuel : Nat) (name : String) (ref : Nat)
    (es : EnvStore) (e : Environment) (v : Option Object) (b : Object) (o : Nat) :
    (envGet es ref name = some v → evalIdentifier name ref es = v)
    ∧ (envGet es ref name = none → builtinsLookup name = some b →
        evalIdentifier name ref es = some b)
    ∧ (envGet es ref name = none → builtinsLookup name = none →
        evalIdentifier name ref es = some (.errorO ("identifier not found: " ++ name)))
    ∧ (es[ref]? = some e → storeLookup e.store name = some v →
        envGetFuel es (fuel + 1) ref name = some v)
    ∧ (es[ref]? = some e → storeLookup e.store name = none → e.outer = some o →
        envGetFuel es (fuel + 1) ref name = envGetFuel es fuel o name)
    ∧ runProgram 10 [.exprS (some (.ident "foobar"))]
        = .ok (some (.errorO "identifier not found: foobar")) := by
  refine ⟨?_, ?_, ?_, ?_, ?_, rfl⟩
  · intro h
    simp only [evalIdentifier, h]
  · intro h hb
    simp only [evalIdentifier, h, hb]
  · intro h hb
    simp only [evalIdentifier, h, hb]
  · intro he hs
    simp only [envGetFuel, he, hs]
  · intro he hs ho
    simp only [envGetFuel, he, hs, ho]

/-- C8 witness. -/
theorem C8_identifier_resolution_witness :
    evalIdentifier "zzz" 0 [newEnvironment]
      = some (.errorO "identifier not found: zzz") :=
  (C8_identifier_resolution 0 "zzz" 0 [newEnvironment] newEnvironment none .nullO 0).2.2.1
    rfl rfl

/-- C9 (confirmed): indexing an Array with an Integer index yields `NULL`
when the index is negative or not below the length, the `i`-th element when
`0 ≤ i < length`, and indexing an Array with any non-Integer index kind
yields an error. -/
theorem C9_array_indexing (elements : List (Option Object)) (i : Int) (idxObj : Object)
    (h0 : 0 ≤ i) (h1 : i < (elements.length : Int))
    (hno : ∀ n : Int, idxObj ≠ .integerO n) :
    (∀ j : Int, (j < 0 ∨ (elements.length : Int) ≤ j) →
       evalIndexExpression (some (.arrayO elements)) (some (.integerO j))
         = .ok (some .nullO))
    ∧ evalIndexExpression (some (.arrayO elements)) (some (.integerO i))
        = .ok (elements.get ⟨i.toNat, by omega⟩)
    ∧ evalIndexExpression (some (.arrayO elements)) (some idxObj)
        = .ok (some (.errorO "index operator not supported: ARRAY")) := by
  refine ⟨?_, ?_, ?_⟩
  · intro j hj
    simp only [evalIndexExpression, evalArrayIndexExpression]
    rw [if_pos (by omega)]
  · simp only [evalIndexExpression, evalArrayIndexExpression]
    rw [if_neg (by omega)]
    have hn : i.toNat < elements.length := by omega
    simp [List.getD_eq_getElem?_getD, List.getElem?_eq_getElem hn, List.get_eq_getElem]
  · cases idxObj with
    | integerO n => exact absurd rfl (hno n)
    | _ => rfl

/-- C9 witness. -/
theorem C9_array_indexing_witness :
    evalIndexExpression (some (.arrayO [some (.integerO 7), some (.integerO 8)]))
      (some (.integerO 1)) = .ok (some (.integerO 8)) :=
  (C9_array_indexing [some (.integerO 7), some (.integerO 8)] 1 (.stringO [])
    (by decide) (by decide) (by intro n h; cases h)).2.1

/-- C10 (confirmed): evaluating an assignment whose name resolves returns
the evaluator's nil marker — not the assigned value — exactly as a `let`
statement does; its only effect is the updated binding, and a program
ending in an assignment expression has no final value. -/
theorem C10_assignment_yields_no_value (fuel : Nat) (name : String)
    (vE : Option Expression) (ref : Nat) (es es1 : EnvStore) (v : Option Object)
    (hval : evalOptE fuel vE ref es = .ok (v, es1))
    (hne : isError v = false)
    (hkey : envIsKey es1 ref name = true) :
    evalE (fuel + 1) (.assignE name vE) ref es = .ok (none, envSet es1 ref name v)
    ∧ evalS (fuel + 1) (.letS name vE) ref es = .ok (none, envSet es1 ref name v)
    ∧ runProgram 10 [.letS "x" (some (.integerLit 5)),
        .exprS (some (.assignE "x" (some (.integerLit 6))))] = .ok none := by
  refine ⟨?_, ?_, rfl⟩
  · simp only [evalE, hval, hne, hkey]
    simp
  · simp only [evalS, hval, hne]
    simp

/-- C10 witness. -/
theorem C10_assignment_yields_no_value_witness :
    evalE 4 (.assignE "y" (some (.integerLit 2))) 0 [⟨[("y", some .nullO)], none⟩]
      = .ok (none, envSet [⟨[("y", some .nullO)], none⟩] 0 "y" (some (.integerO 2))) :=
  (C10_assignment_yields_no_value 3 "y" (some (.integerLit 2)) 0
    [⟨[("y", some .nullO)], none⟩] [⟨[("y", some .nullO)], none⟩]
    (some (.integerO 2)) rfl rfl rfl).1
